import Mathlib

/-!
Shallow embedding of the Smart Power Grid Demand-Response Coordinator
(src/smartGrid.cpp) and verification of its specification claims.

Doubles are modelled as rationals, `time_t` as integers.  The C++
`std::priority_queue` over `DemandRequest*` with comparator `CompareDemand`
is modelled as a plain list together with a selection step `pqPop` that
removes a maximal element with respect to the comparator (ties resolved
deterministically towards the earlier list position, a refinement of the
unspecified tie order of the heap).
-/

/-- Request lifecycle states, from `DemandRequest::State`. -/
inductive ReqState
  | CREATED
  | QUEUED
  | ALLOCATED
  | SHED
  | COMPLETED
deriving DecidableEq, Repr

/-- The three request kinds (`ResidentialRequest`, `CommercialRequest`,
`IndustrialRequest`), collapsed into a tag since they differ only in the
value returned by `priority()`. -/
inductive ReqClass
  | RESIDENTIAL
  | COMMERCIAL
  | INDUSTRIAL
deriving DecidableEq, Repr

/-- The `priority()` override of each request subclass. -/
def ReqClass.priorityVal : ReqClass → Nat
  | .RESIDENTIAL => 1
  | .COMMERCIAL => 2
  | .INDUSTRIAL => 3

/-- `DemandRequest`: consumer id, requested MW, creation timestamp,
lifecycle state, plus the class tag that determines `priority()`. -/
structure DemandRequest where
  consumerID : String
  megawatts : ℚ
  timestamp : Int
  state : ReqState
  rclass : ReqClass
deriving DecidableEq, Repr

/-- `DemandRequest::priority()` (virtual, resolved by the class tag). -/
def DemandRequest.priority (r : DemandRequest) : Nat :=
  r.rclass.priorityVal

/-- `CompareDemand::operator()`: strict "less" used by the priority queue.
`a` is below `b` when `a` has smaller priority, or equal priority and a
strictly later (larger) timestamp. -/
def compareDemand (a b : DemandRequest) : Bool :=
  if a.priority ≠ b.priority then decide (a.priority < b.priority)
  else decide (b.timestamp < a.timestamp)

/-- `Substation`: id, capacity, currently used MW, online flag. -/
structure Substation where
  id : String
  capacityMW : ℚ
  usedMW : ℚ
  online : Bool
deriving DecidableEq, Repr

/-- `Substation::available()`: capacity minus used when online, else 0. -/
def Substation.available (s : Substation) : ℚ :=
  if s.online then s.capacityMW - s.usedMW else 0

/-- `Substation::allocate(mw)`: succeeds (adding `mw` to `usedMW`) iff
`available() >= mw`; returns the success flag and the updated station. -/
def Substation.allocate (s : Substation) (mw : ℚ) : Bool × Substation :=
  if mw ≤ s.available then (true, { s with usedMW := s.usedMW + mw })
  else (false, s)

/-- `Substation::deallocate(mw)`: subtract `mw` from `usedMW`, floored at 0. -/
def Substation.deallocate (s : Substation) (mw : ℚ) : Substation :=
  { s with usedMW := max 0 (s.usedMW - mw) }

/-- Maintenance job states, from `MaintenanceJob::State`. -/
inductive MJState
  | SCHEDULED
  | IN_PROGRESS
  | DONE
deriving DecidableEq, Repr

/-- `MaintenanceJob`: target substation id, window bounds, state. -/
structure MaintenanceJob where
  substationID : String
  startTime : Int
  endTime : Int
  state : MJState
deriving DecidableEq, Repr

/-- `MaintenanceJob::advanceState(now)`: Scheduled → InProgress when
`now ≥ start`, then (possibly in the same call) InProgress → Done when
`now ≥ end`. -/
def MaintenanceJob.advanceState (j : MaintenanceJob) (now : Int) : MaintenanceJob :=
  let j1 := if j.state = .SCHEDULED ∧ j.startTime ≤ now
    then { j with state := .IN_PROGRESS } else j
  if j1.state = .IN_PROGRESS ∧ j1.endTime ≤ now
    then { j1 with state := .DONE } else j1

/-- `GridController` state: pending demand queue (modelled as a list,
drained through `pqPop`), substations in registration order, and the
maintenance job list. -/
structure GridController where
  demandQ : List DemandRequest
  substations : List Substation
  maintenanceList : List MaintenanceJob
deriving DecidableEq, Repr

/-- `GridController::addSubstation`. -/
def GridController.addSubstation (g : GridController) (id : String) (cap : ℚ) :
    GridController :=
  { g with substations := g.substations ++ [⟨id, cap, 0, true⟩] }

/-- `GridController::receiveDemand`: set the request state to QUEUED and
push it on the demand queue. -/
def GridController.receiveDemand (g : GridController) (req : DemandRequest) :
    GridController :=
  { g with demandQ := g.demandQ ++ [{ req with state := .QUEUED }] }

/-- `GridController::scheduleMaintenance`: append a SCHEDULED job. -/
def GridController.scheduleMaintenance (g : GridController) (sid : String)
    (start stop : Int) : GridController :=
  { g with maintenanceList := g.maintenanceList ++ [⟨sid, start, stop, .SCHEDULED⟩] }

/-- One `priority_queue` pop: remove a maximal element under
`compareDemand` (the element `top()` would return).  Among tied elements
the earliest list position wins. -/
def pqPop : List DemandRequest → Option (DemandRequest × List DemandRequest)
  | [] => none
  | r :: rs =>
    match pqPop rs with
    | none => some (r, [])
    | some (m, rest) =>
      if compareDemand r m then some (m, r :: rest) else some (r, rs)

/-- Drain the queue by repeated pops, with an explicit fuel bound. -/
def drainAux : Nat → List DemandRequest → List DemandRequest
  | 0, _ => []
  | Nat.succ n, l =>
    match pqPop l with
    | none => []
    | some (m, rest) => m :: drainAux n rest

/-- The full drain of the pending queue: the order in which
`runScheduler`'s `while (!demandQ.empty())` loop sees the requests. -/
def drainPQ (l : List DemandRequest) : List DemandRequest :=
  drainAux l.length l

/-- The inner `for (auto &sub : substations) if (sub.allocate(...))` loop:
try each substation in registration order, stop at the first success. -/
def tryAllocate (mw : ℚ) : List Substation → Bool × List Substation
  | [] => (false, [])
  | s :: rest =>
    if (s.allocate mw).1 then (true, (s.allocate mw).2 :: rest)
    else ((tryAllocate mw rest).1, s :: (tryAllocate mw rest).2)

/-- Process one drained request: mark it ALLOCATED on success, SHED on
failure, returning the updated request and substation list. -/
def processOne (subs : List Substation) (r : DemandRequest) :
    DemandRequest × List Substation :=
  if (tryAllocate r.megawatts subs).1 then
    ({ r with state := .ALLOCATED }, (tryAllocate r.megawatts subs).2)
  else
    ({ r with state := .SHED }, (tryAllocate r.megawatts subs).2)

/-- Process the whole drained sequence in order (the body of step 2 of
`runScheduler`), returning the `temp` queue contents and the final
substation list. -/
def processAll (subs : List Substation) :
    List DemandRequest → List DemandRequest × List Substation
  | [] => ([], subs)
  | r :: rs =>
    ((processOne subs r).1 :: (processAll (processOne subs r).2 rs).1,
     (processAll (processOne subs r).2 rs).2)

/-- Step 1 of `runScheduler`: advance every maintenance job in list order
and, after each advance, overwrite the online flag of every substation
whose id matches that job (`online = (state != IN_PROGRESS)`). -/
def maintStep (now : Int) :
    List MaintenanceJob → List Substation → List MaintenanceJob × List Substation
  | [], subs => ([], subs)
  | j :: rest, subs =>
    ((j.advanceState now :: (maintStep now rest
        (subs.map fun s =>
          if s.id = (j.advanceState now).substationID
          then { s with online := decide ((j.advanceState now).state ≠ .IN_PROGRESS) }
          else s)).1),
     (maintStep now rest
        (subs.map fun s =>
          if s.id = (j.advanceState now).substationID
          then { s with online := decide ((j.advanceState now).state ≠ .IN_PROGRESS) }
          else s)).2)

/-- `GridController::runScheduler` at time `now`: advance maintenance,
drain and process all pending requests, then re-enqueue those still
QUEUED.  Returns the new controller state together with the `temp` queue
(the requests in processing order with their final states). -/
def GridController.runScheduler (g : GridController) (now : Int) :
    GridController × List DemandRequest :=
  let ms := maintStep now g.maintenanceList g.substations
  let pr := processAll ms.2 (drainPQ g.demandQ)
  ({ demandQ := pr.1.filter fun r => decide (r.state = .QUEUED),
     substations := pr.2,
     maintenanceList := ms.1 },
   pr.1)


/-- Rank of a maintenance state, for monotonicity statements. -/
def stateRank : MJState → Nat
  | .SCHEDULED => 0
  | .IN_PROGRESS => 1
  | .DONE => 2

/-- The immutable part of a request: everything but the lifecycle state. -/
def reqCore (r : DemandRequest) : String × ℚ × Int × ReqClass :=
  (r.consumerID, r.megawatts, r.timestamp, r.rclass)

/-- The last job in list order whose target id matches `sid` (the job whose
write to the online flag survives the loop in step 1 of `runScheduler`). -/
def lastMatch (sid : String) : List MaintenanceJob → Option MaintenanceJob
  | [] => none
  | j :: rest =>
    match lastMatch sid rest with
    | some k => some k
    | none => if sid = j.substationID then some j else none

/-- Effect of the surviving write (if any) on a substation's online flag. -/
def applyMaint (s : Substation) : Option MaintenanceJob → Substation
  | none => s
  | some j => { s with online := decide (j.state ≠ .IN_PROGRESS) }

/-- The capacity invariant `0 ≤ used ≤ capacity` of a substation. -/
def SubInv (s : Substation) : Prop :=
  0 ≤ s.usedMW ∧ s.usedMW ≤ s.capacityMW

instance (s : Substation) : Decidable (SubInv s) :=
  inferInstanceAs (Decidable (_ ∧ _))

/-! ### Concrete fixtures used by witnesses and counterexamples -/

/-- Two pending requests of different classes, no substations. -/
def gridW : GridController :=
  { demandQ := [⟨"R1", 7, 0, .QUEUED, .RESIDENTIAL⟩,
                ⟨"I1", 5, 1, .QUEUED, .INDUSTRIAL⟩],
    substations := [],
    maintenanceList := [] }

/-- Two pending requests of the same class with different timestamps. -/
def gridW2 : GridController :=
  { demandQ := [⟨"A", 5, 10, .QUEUED, .COMMERCIAL⟩,
                ⟨"B", 5, 3, .QUEUED, .COMMERCIAL⟩],
    substations := [],
    maintenanceList := [] }

/-- A substation with spare capacity. -/
def s3 : Substation := ⟨"S", 10, 2, true⟩

/-- An empty substation. -/
def sW6 : Substation := ⟨"A", 10, 0, true⟩

/-- An offline substation. -/
def sOff9 : Substation := ⟨"S", 20, 0, false⟩

/-- A fully loaded substation. -/
def subCex4 : Substation := ⟨"S01", 10, 10, true⟩

/-- A grid with a pending negative-MW request. -/
def gridCex4 : GridController :=
  { demandQ := [⟨"R1", -5, 0, .QUEUED, .RESIDENTIAL⟩],
    substations := [⟨"S01", 10, 0, true⟩],
    maintenanceList := [] }

/-- A grid with two maintenance jobs on the same substation: at time 100 the
first is in progress and the second already finished. -/
def gridCex5 : GridController :=
  { demandQ := [⟨"R1", 10, 0, .QUEUED, .RESIDENTIAL⟩],
    substations := [⟨"S01", 50, 0, true⟩],
    maintenanceList := [⟨"S01", 50, 200, .SCHEDULED⟩, ⟨"S01", 0, 10, .SCHEDULED⟩] }

/-- The grid of the two-request allocation scenario. -/
def gridC6 : GridController :=
  { demandQ := [⟨"I1", 30, 0, .QUEUED, .INDUSTRIAL⟩,
                ⟨"R1", 45, 1, .QUEUED, .RESIDENTIAL⟩],
    substations := [⟨"S01", 50, 0, true⟩, ⟨"S02", 40, 0, true⟩],
    maintenanceList := [] }

/-- A scheduled maintenance job whose whole window precedes time 10. -/
def j8 : MaintenanceJob := ⟨"S", 0, 5, .SCHEDULED⟩

/-! ### Comparator lemmas -/

lemma compareDemand_false_iff {a b : DemandRequest} :
    compareDemand a b = false ↔
      (b.priority < a.priority ∨
        (a.priority = b.priority ∧ a.timestamp ≤ b.timestamp)) := by
  unfold compareDemand
  split_ifs with h <;> simp <;> omega

lemma compareDemand_true_iff {a b : DemandRequest} :
    compareDemand a b = true ↔
      (a.priority < b.priority ∨
        (a.priority = b.priority ∧ b.timestamp < a.timestamp)) := by
  unfold compareDemand
  split_ifs with h <;> simp <;> omega

lemma compareDemand_asymm {a b : DemandRequest}
    (h : compareDemand a b = true) : compareDemand b a = false := by
  rw [compareDemand_true_iff] at h
  rw [compareDemand_false_iff]
  omega

lemma compareDemand_false_trans {a b c : DemandRequest}
    (h1 : compareDemand a b = false) (h2 : compareDemand b c = false) :
    compareDemand a c = false := by
  rw [compareDemand_false_iff] at h1 h2 ⊢
  omega

/-! ### Priority-queue lemmas -/

lemma pqPop_eq_none_iff {l : List DemandRequest} : pqPop l = none ↔ l = [] := by
  cases l with
  | nil => simp [pqPop]
  | cons r rs =>
    simp only [pqPop]
    cases h : pqPop rs with
    | none => simp
    | some p =>
      obtain ⟨m, rest⟩ := p
      simp only []
      split_ifs <;> simp

lemma pqPop_perm : ∀ {l : List DemandRequest} {m : DemandRequest}
    {rest : List DemandRequest},
    pqPop l = some (m, rest) → l.Perm (m :: rest) := by
  intro l
  induction l with
  | nil => intro m rest h; simp [pqPop] at h
  | cons r rs ih =>
    intro m rest h
    simp only [pqPop] at h
    cases hp : pqPop rs with
    | none =>
      rw [hp] at h
      simp only [Option.some.injEq, Prod.mk.injEq] at h
      obtain ⟨h1, h2⟩ := h
      subst h1; subst h2
      have hnil : rs = [] := pqPop_eq_none_iff.mp hp
      subst hnil
      exact List.Perm.refl _
    | some p =>
      obtain ⟨m0, rest0⟩ := p
      rw [hp] at h
      simp only [] at h
      by_cases hc : compareDemand r m0
      · rw [if_pos hc] at h
        simp only [Option.some.injEq, Prod.mk.injEq] at h
        obtain ⟨h1, h2⟩ := h
        subst h1; subst h2
        exact (List.Perm.cons r (ih hp)).trans (List.Perm.swap _ r rest0)
      · rw [if_neg hc] at h
        simp only [Option.some.injEq, Prod.mk.injEq] at h
        obtain ⟨h1, h2⟩ := h
        subst h1; subst h2
        exact List.Perm.refl _

lemma pqPop_max : ∀ {l : List DemandRequest} {m : DemandRequest}
    {rest : List DemandRequest},
    pqPop l = some (m, rest) → ∀ x ∈ rest, compareDemand m x = false := by
  intro l
  induction l with
  | nil => intro m rest h; simp [pqPop] at h
  | cons r rs ih =>
    intro m rest h
    simp only [pqPop] at h
    cases hp : pqPop rs with
    | none =>
      rw [hp] at h
      simp only [Option.some.injEq, Prod.mk.injEq] at h
      obtain ⟨h1, h2⟩ := h
      subst h1; subst h2
      intro x hx
      simp at hx
    | some p =>
      obtain ⟨m0, rest0⟩ := p
      rw [hp] at h
      simp only [] at h
      by_cases hc : compareDemand r m0
      · rw [if_pos hc] at h
        simp only [Option.some.injEq, Prod.mk.injEq] at h
        obtain ⟨h1, h2⟩ := h
        subst h1; subst h2
        intro x hx
        rcases List.mem_cons.mp hx with hx | hx
        · subst hx; exact compareDemand_asymm hc
        · exact ih hp x hx
      · rw [if_neg hc] at h
        simp only [Option.some.injEq, Prod.mk.injEq] at h
        obtain ⟨h1, h2⟩ := h
        subst h1; subst h2
        intro x hx
        simp only [Bool.not_eq_true] at hc
        have hx' : x ∈ m0 :: rest0 := (pqPop_perm hp).subset hx
        rcases List.mem_cons.mp hx' with hx' | hx'
        · subst hx'; exact hc
        · exact compareDemand_false_trans hc (ih hp x hx')

/-! ### Drain lemmas -/

lemma drainAux_subset : ∀ (n : Nat) (l : List DemandRequest)
    (x : DemandRequest), x ∈ drainAux n l → x ∈ l := by
  intro n
  induction n with
  | zero => intro l x h; simp [drainAux] at h
  | succ n ih =>
    intro l x h
    simp only [drainAux] at h
    cases hp : pqPop l with
    | none => rw [hp] at h; simp at h
    | some p =>
      obtain ⟨m, rest⟩ := p
      rw [hp] at h
      simp only [List.mem_cons] at h
      have hperm := pqPop_perm hp
      rcases h with h | h
      · subst h; exact hperm.symm.subset (List.mem_cons_self _ _)
      · exact hperm.symm.subset (List.mem_cons_of_mem _ (ih rest x h))

lemma drainAux_sorted : ∀ (n : Nat) (l : List DemandRequest),
    (drainAux n l).Pairwise (fun a b => compareDemand a b = false) := by
  intro n
  induction n with
  | zero => intro l; simp [drainAux]
  | succ n ih =>
    intro l
    simp only [drainAux]
    cases hp : pqPop l with
    | none => simp
    | some p =>
      obtain ⟨m, rest⟩ := p
      rw [List.pairwise_cons]
      refine ⟨?_, ih rest⟩
      intro x hx
      exact pqPop_max hp x (drainAux_subset n rest x hx)

lemma drainAux_perm : ∀ (n : Nat) (l : List DemandRequest), l.length ≤ n →
    (drainAux n l).Perm l := by
  intro n
  induction n with
  | zero =>
    intro l h
    have : l = [] := List.eq_nil_of_length_eq_zero (Nat.le_zero.mp h)
    subst this
    simp [drainAux]
  | succ n ih =>
    intro l hlen
    simp only [drainAux]
    cases hp : pqPop l with
    | none =>
      have : l = [] := pqPop_eq_none_iff.mp hp
      subst this
      simp
    | some p =>
      obtain ⟨m, rest⟩ := p
      have hperm := pqPop_perm hp
      have hr : rest.length ≤ n := by
        have hl := hperm.length_eq
        simp only [List.length_cons] at hl
        omega
      exact ((ih rest hr).cons m).trans hperm.symm

lemma drainPQ_perm (l : List DemandRequest) : (drainPQ l).Perm l :=
  drainAux_perm l.length l le_rfl

lemma drainPQ_sorted (l : List DemandRequest) :
    (drainPQ l).Pairwise (fun a b => compareDemand a b = false) :=
  drainAux_sorted l.length l

/-! ### Processing lemmas -/

lemma processOne_core (subs : List Substation) (r : DemandRequest) :
    reqCore (processOne subs r).1 = reqCore r := by
  unfold processOne
  split_ifs <;> rfl

lemma processOne_state (subs : List Substation) (r : DemandRequest) :
    (processOne subs r).1.state = ReqState.ALLOCATED ∨
      (processOne subs r).1.state = ReqState.SHED := by
  unfold processOne
  split_ifs <;> simp

lemma processAll_map_core : ∀ (l : List DemandRequest) (subs : List Substation),
    ((processAll subs l).1).map reqCore = l.map reqCore := by
  intro l
  induction l with
  | nil => intro subs; rfl
  | cons r rs ih =>
    intro subs
    simp [processAll, processOne_core, ih]

lemma processAll_states : ∀ (l : List DemandRequest) (subs : List Substation)
    (x : DemandRequest), x ∈ (processAll subs l).1 →
    x.state = ReqState.ALLOCATED ∨ x.state = ReqState.SHED := by
  intro l
  induction l with
  | nil => intro subs x h; simp [processAll] at h
  | cons r rs ih =>
    intro subs x h
    simp only [processAll, List.mem_cons] at h
    rcases h with h | h
    · subst h; exact processOne_state subs r
    · exact ih _ x h

lemma compareDemand_congr {a a' b b' : DemandRequest}
    (ha : reqCore a = reqCore a') (hb : reqCore b = reqCore b') :
    compareDemand a b = compareDemand a' b' := by
  simp only [reqCore, Prod.mk.injEq] at ha hb
  unfold compareDemand DemandRequest.priority
  rw [ha.2.2.1, ha.2.2.2, hb.2.2.1, hb.2.2.2]

lemma pairwise_core_transport : ∀ {l l' : List DemandRequest},
    l.map reqCore = l'.map reqCore →
    l'.Pairwise (fun a b => compareDemand a b = false) →
    l.Pairwise (fun a b => compareDemand a b = false) := by
  intro l
  induction l with
  | nil => intro l' h hp; simp
  | cons a t ih =>
    intro l' h hp
    cases l' with
    | nil => simp at h
    | cons a' t' =>
      simp only [List.map_cons, List.cons.injEq] at h
      obtain ⟨hhd, htl⟩ := h
      rw [List.pairwise_cons] at hp ⊢
      obtain ⟨hp1, hp2⟩ := hp
      refine ⟨?_, ih htl hp2⟩
      intro x hx
      have hmem : reqCore x ∈ t'.map reqCore := by
        rw [← htl]
        exact List.mem_map_of_mem reqCore hx
      obtain ⟨x', hx', hcx⟩ := List.mem_map.mp hmem
      rw [compareDemand_congr hhd hcx.symm]
      exact hp1 x' hx'

lemma runScheduler_snd (g : GridController) (now : Int) :
    (g.runScheduler now).2 =
      (processAll (maintStep now g.maintenanceList g.substations).2
        (drainPQ g.demandQ)).1 := rfl

lemma runScheduler_processed_sorted (g : GridController) (now : Int) :
    ((g.runScheduler now).2).Pairwise (fun a b => compareDemand a b = false) := by
  rw [runScheduler_snd]
  exact pairwise_core_transport (processAll_map_core _ _) (drainPQ_sorted _)

lemma runScheduler_processed_core_perm (g : GridController) (now : Int) :
    (((g.runScheduler now).2).map reqCore).Perm (g.demandQ.map reqCore) := by
  rw [runScheduler_snd, processAll_map_core]
  exact (drainPQ_perm g.demandQ).map reqCore

/-! ### Maintenance-step lemmas -/

lemma maintStep_jobs : ∀ (jobs : List MaintenanceJob) (subs : List Substation)
    (now : Int),
    (maintStep now jobs subs).1 = jobs.map (·.advanceState now) := by
  intro jobs
  induction jobs with
  | nil => intro subs now; rfl
  | cons j rest ih =>
    intro subs now
    simp only [maintStep, List.map_cons, List.cons.injEq]
    exact ⟨trivial, ih _ now⟩

lemma maintStep_subs : ∀ (jobs : List MaintenanceJob) (subs : List Substation)
    (now : Int),
    (maintStep now jobs subs).2
      = subs.map fun s =>
          applyMaint s (lastMatch s.id (jobs.map (·.advanceState now))) := by
  intro jobs
  induction jobs with
  | nil =>
    intro subs now
    simp [maintStep, lastMatch, applyMaint]
  | cons j rest ih =>
    intro subs now
    simp only [maintStep]
    rw [ih, List.map_map, List.map_cons]
    congr 1
    funext s
    simp only [Function.comp_apply]
    by_cases hc : s.id = (j.advanceState now).substationID
    · simp only [if_pos hc, lastMatch]
      cases h : lastMatch s.id (rest.map (·.advanceState now)) with
      | some k => simp [applyMaint]
      | none => simp [applyMaint, hc]
    · simp only [if_neg hc, lastMatch]
      cases h : lastMatch s.id (rest.map (·.advanceState now)) with
      | some k => simp [applyMaint]
      | none => simp [applyMaint, hc]

/-! ### Allocation lemmas -/

lemma allocate_fst_iff (s : Substation) (mw : ℚ) :
    (s.allocate mw).1 = true ↔ mw ≤ s.available := by
  unfold Substation.allocate
  split_ifs with h <;> simp [h]

lemma allocate_snd_of_le (s : Substation) (mw : ℚ) (h : mw ≤ s.available) :
    (s.allocate mw).2 = { s with usedMW := s.usedMW + mw } := by
  unfold Substation.allocate
  rw [if_pos h]

lemma tryAllocate_fst_iff : ∀ (subs : List Substation) (mw : ℚ),
    (tryAllocate mw subs).1 = true ↔ ∃ s ∈ subs, mw ≤ s.available := by
  intro subs
  induction subs with
  | nil => intro mw; simp [tryAllocate]
  | cons s rest ih =>
    intro mw
    simp only [tryAllocate]
    by_cases h : (s.allocate mw).1 = true
    · rw [if_pos h]
      have hs : mw ≤ s.available := (allocate_fst_iff s mw).mp h
      simp [hs]
    · rw [if_neg h]
      have hs : ¬ mw ≤ s.available := fun hle => h ((allocate_fst_iff s mw).mpr hle)
      simp [ih, hs]

lemma tryAllocate_all_fail : ∀ (subs : List Substation) (mw : ℚ),
    (∀ s ∈ subs, s.available < mw) → tryAllocate mw subs = (false, subs) := by
  intro subs
  induction subs with
  | nil => intro mw _; rfl
  | cons s rest ih =>
    intro mw hall
    have hs : ¬ (s.allocate mw).1 = true := by
      rw [allocate_fst_iff]
      exact not_le.mpr (hall s (List.mem_cons_self _ _))
    simp only [tryAllocate, if_neg hs]
    rw [ih mw fun x hx => hall x (List.mem_cons_of_mem _ hx)]

lemma tryAllocate_first : ∀ (subs : List Substation) (mw : ℚ)
    (i : Fin subs.length),
    mw ≤ (subs.get i).available →
    (∀ j : Fin subs.length, (j : ℕ) < (i : ℕ) → (subs.get j).available < mw) →
    tryAllocate mw subs =
      (true, subs.set i { subs.get i with usedMW := (subs.get i).usedMW + mw }) := by
  intro subs
  induction subs with
  | nil => intro mw i; exact absurd i.isLt (by simp)
  | cons s rest ih =>
    intro mw i hi hfirst
    obtain ⟨iv, hiv⟩ := i
    cases iv with
    | zero =>
      have hi' : mw ≤ s.available := hi
      have hs : (s.allocate mw).1 = true := (allocate_fst_iff s mw).mpr hi'
      simp only [tryAllocate, if_pos hs]
      rw [allocate_snd_of_le s mw hi']
      rfl
    | succ k =>
      have h0 : s.available < mw := hfirst ⟨0, Nat.succ_pos _⟩ (Nat.succ_pos k)
      have hs : ¬ (s.allocate mw).1 = true := by
        rw [allocate_fst_iff]
        exact not_le.mpr h0
      simp only [tryAllocate, if_neg hs]
      have hk : mw ≤ (rest.get ⟨k, Nat.lt_of_succ_lt_succ hiv⟩).available := hi
      have hothers : ∀ j : Fin rest.length, (j : ℕ) < k →
          (rest.get j).available < mw := by
        intro j hj
        exact hfirst ⟨(j : ℕ) + 1, Nat.succ_lt_succ j.isLt⟩ (Nat.succ_lt_succ hj)
      rw [ih mw ⟨k, Nat.lt_of_succ_lt_succ hiv⟩ hk hothers]
      rfl

/-! ### Capacity invariant -/

lemma allocate_inv (s : Substation) (mw : ℚ) (h : SubInv s) (hmw : 0 < mw) :
    SubInv (s.allocate mw).2 := by
  obtain ⟨h0, hc⟩ := h
  unfold Substation.allocate
  split_ifs with hle
  · unfold Substation.available at hle
    by_cases ho : s.online
    · rw [if_pos ho] at hle
      refine ⟨?_, ?_⟩
      · show (0:ℚ) ≤ s.usedMW + mw
        linarith
      · show s.usedMW + mw ≤ s.capacityMW
        linarith
    · rw [if_neg ho] at hle
      exact absurd (lt_of_lt_of_le hmw hle) (lt_irrefl 0)
  · exact ⟨h0, hc⟩

lemma deallocate_inv (s : Substation) (mw : ℚ) (h : SubInv s) (hmw : 0 ≤ mw) :
    SubInv (s.deallocate mw) := by
  obtain ⟨h0, hc⟩ := h
  refine ⟨?_, ?_⟩
  · show (0:ℚ) ≤ max 0 (s.usedMW - mw)
    exact le_max_left _ _
  · show max 0 (s.usedMW - mw) ≤ s.capacityMW
    exact max_le (by linarith) (by linarith)

lemma subInv_available_nonneg (s : Substation) (h : SubInv s) :
    0 ≤ s.available := by
  obtain ⟨h0, hc⟩ := h
  unfold Substation.available
  split_ifs <;> linarith

lemma tryAllocate_inv : ∀ (subs : List Substation) (mw : ℚ), 0 < mw →
    (∀ s ∈ subs, SubInv s) → ∀ x ∈ (tryAllocate mw subs).2, SubInv x := by
  intro subs
  induction subs with
  | nil => intro mw _ _ x hx; simp [tryAllocate] at hx
  | cons s rest ih =>
    intro mw hmw hall x hx
    simp only [tryAllocate] at hx
    by_cases h : (s.allocate mw).1 = true
    · rw [if_pos h] at hx
      simp only [] at hx
      rcases List.mem_cons.mp hx with hx | hx
      · subst hx
        exact allocate_inv s mw (hall s (List.mem_cons_self _ _)) hmw
      · exact hall x (List.mem_cons_of_mem _ hx)
    · rw [if_neg h] at hx
      simp only [] at hx
      rcases List.mem_cons.mp hx with hx | hx
      · rw [hx]
        exact hall s (List.mem_cons_self _ _)
      · exact ih mw hmw (fun y hy => hall y (List.mem_cons_of_mem _ hy)) x hx

lemma processOne_subs (subs : List Substation) (r : DemandRequest) :
    (processOne subs r).2 = (tryAllocate r.megawatts subs).2 := by
  unfold processOne
  split_ifs <;> rfl

lemma processAll_inv : ∀ (l : List DemandRequest) (subs : List Substation),
    (∀ r ∈ l, 0 < r.megawatts) → (∀ s ∈ subs, SubInv s) →
    ∀ x ∈ (processAll subs l).2, SubInv x := by
  intro l
  induction l with
  | nil => intro subs _ hall x hx; exact hall x hx
  | cons r rs ih =>
    intro subs hpos hall x hx
    simp only [processAll] at hx
    refine ih _ (fun y hy => hpos y (List.mem_cons_of_mem _ hy)) ?_ x hx
    intro y hy
    rw [processOne_subs] at hy
    exact tryAllocate_inv subs r.megawatts (hpos r (List.mem_cons_self _ _)) hall y hy

lemma applyMaint_inv (s : Substation) (o : Option MaintenanceJob)
    (h : SubInv s) : SubInv (applyMaint s o) := by
  cases o with
  | none => exact h
  | some j => exact ⟨h.1, h.2⟩

lemma maintStep_inv (jobs : List MaintenanceJob) (subs : List Substation)
    (now : Int) (hall : ∀ s ∈ subs, SubInv s) :
    ∀ x ∈ (maintStep now jobs subs).2, SubInv x := by
  intro x hx
  rw [maintStep_subs] at hx
  obtain ⟨s, hs, hsx⟩ := List.mem_map.mp hx
  subst hsx
  exact applyMaint_inv s _ (hall s hs)

/-! ### Claim theorems -/

/-- C1: In every `runScheduler` cycle, whenever one processed request has a
strictly greater priority class than another, the higher-priority request
occupies a strictly earlier position in the dequeue-and-attempt order
(the `temp` sequence returned by `runScheduler`). -/
theorem runScheduler_priority_order (g : GridController) (now : Int)
    (i j : Fin ((g.runScheduler now).2).length)
    (h : (((g.runScheduler now).2).get j).priority
        < (((g.runScheduler now).2).get i).priority) :
    (i : ℕ) < (j : ℕ) := by
  have hs := runScheduler_processed_sorted g now
  rw [List.pairwise_iff_get] at hs
  rcases Nat.lt_trichotomy (i : ℕ) (j : ℕ) with hlt | heq | hgt
  · exact hlt
  · exfalso
    rw [Fin.ext heq] at h
    exact lt_irrefl _ h
  · have hR := hs j i hgt
    rw [compareDemand_false_iff] at hR
    omega

/-- Witness for C1: on a queue holding a residential and an industrial
request, the industrial one (position 0) is dequeued before the
residential one (position 1). -/
theorem runScheduler_priority_order_witness :
    (((gridW.runScheduler 0).2.get ⟨1, by decide⟩).priority
        < ((gridW.runScheduler 0).2.get ⟨0, by decide⟩).priority)
    ∧ ((0 : ℕ) < 1) :=
  ⟨by decide,
   runScheduler_priority_order gridW 0 ⟨0, by decide⟩ ⟨1, by decide⟩ (by decide)⟩

/-- C2: In every `runScheduler` cycle, among processed requests of equal
priority class, one with a strictly earlier creation timestamp occupies a
strictly earlier position in the dequeue-and-attempt order. -/
theorem runScheduler_fifo_within_class (g : GridController) (now : Int)
    (i j : Fin ((g.runScheduler now).2).length)
    (hp : (((g.runScheduler now).2).get i).priority
        = (((g.runScheduler now).2).get j).priority)
    (ht : (((g.runScheduler now).2).get i).timestamp
        < (((g.runScheduler now).2).get j).timestamp) :
    (i : ℕ) < (j : ℕ) := by
  have hs := runScheduler_processed_sorted g now
  rw [List.pairwise_iff_get] at hs
  rcases Nat.lt_trichotomy (i : ℕ) (j : ℕ) with hlt | heq | hgt
  · exact hlt
  · exfalso
    rw [Fin.ext heq] at ht
    exact lt_irrefl _ ht
  · have hR := hs j i hgt
    rw [compareDemand_false_iff] at hR
    omega

/-- Witness for C2: two commercial requests with timestamps 3 and 10 are
processed in timestamp order. -/
theorem runScheduler_fifo_within_class_witness :
    (((gridW2.runScheduler 0).2.get ⟨0, by decide⟩).priority
        = ((gridW2.runScheduler 0).2.get ⟨1, by decide⟩).priority)
    ∧ (((gridW2.runScheduler 0).2.get ⟨0, by decide⟩).timestamp
        < ((gridW2.runScheduler 0).2.get ⟨1, by decide⟩).timestamp)
    ∧ ((0 : ℕ) < 1) :=
  ⟨by decide, by decide,
   runScheduler_fifo_within_class gridW2 0 ⟨0, by decide⟩ ⟨1, by decide⟩
     (by decide) (by decide)⟩

/-- C3: For every substation and positive `mw`, `allocate(mw)` succeeds and
adds exactly `mw` to `usedMW` iff `available() ≥ mw`; on failure the
substation is unchanged. -/
theorem allocate_spec (s : Substation) (mw : ℚ) (_hmw : 0 < mw) :
    ((s.allocate mw).1 = true ↔ mw ≤ s.available)
    ∧ ((s.allocate mw).1 = true →
        (s.allocate mw).2 = { s with usedMW := s.usedMW + mw })
    ∧ ((s.allocate mw).1 = false → (s.allocate mw).2 = s) := by
  refine ⟨allocate_fst_iff s mw, ?_, ?_⟩
  · intro h
    exact allocate_snd_of_le s mw ((allocate_fst_iff s mw).mp h)
  · intro h
    unfold Substation.allocate at h ⊢
    split_ifs at h ⊢ with hle
    rfl

/-- Witness for C3, at the substation `s3` (capacity 10, used 2) and the
positive demand 4. -/
theorem allocate_spec_witness :
    (0 : ℚ) < 4
    ∧ (((s3.allocate 4).1 = true ↔ (4 : ℚ) ≤ s3.available)
      ∧ ((s3.allocate 4).1 = true →
          (s3.allocate 4).2 = { s3 with usedMW := s3.usedMW + 4 })
      ∧ ((s3.allocate 4).1 = false → (s3.allocate 4).2 = s3)) :=
  ⟨by decide, allocate_spec s3 4 (by decide)⟩

/-- Counterexample for C4 as stated: the substation `subCex4` (capacity 10,
used 10) satisfies the invariant, yet `deallocate(-5)` pushes `usedMW` to
15 above capacity, and one `runScheduler` cycle on a grid whose only
pending request asks for -5 MW drives the substation's `usedMW` to -5. -/
theorem capacity_invariant_cex :
    SubInv subCex4
    ∧ subCex4.capacityMW < (subCex4.deallocate (-5)).usedMW
    ∧ SubInv (⟨"S01", 10, 0, true⟩ : Substation)
    ∧ ((gridCex4.runScheduler 0).1.substations.map Substation.usedMW = [-5])
    ∧ ((-5 : ℚ) < 0) := by
  refine ⟨by decide, ?_, by decide, ?_, by decide⟩
  · norm_num [subCex4, Substation.deallocate]
  · norm_num [gridCex4, GridController.runScheduler, maintStep, drainPQ, drainAux,
      pqPop, processAll, processOne, tryAllocate, Substation.allocate,
      Substation.available]

/-- C4 (amended): `0 ≤ used ≤ capacity` is preserved by `allocate` with
positive `mw`, by `deallocate` with nonnegative `mw`, and by `runScheduler`
whenever every pending request has positive megawatts; under the invariant,
`available() ≥ 0` always and `used = capacity - available()` when online. -/
theorem capacity_invariant_preserved :
    (∀ (s : Substation) (mw : ℚ), SubInv s → 0 < mw → SubInv (s.allocate mw).2)
    ∧ (∀ (s : Substation) (mw : ℚ), SubInv s → 0 ≤ mw → SubInv (s.deallocate mw))
    ∧ (∀ (g : GridController) (now : Int),
        (∀ r ∈ g.demandQ, 0 < r.megawatts) →
        (∀ s ∈ g.substations, SubInv s) →
        ∀ s ∈ ((g.runScheduler now).1).substations, SubInv s)
    ∧ (∀ s : Substation, SubInv s →
        0 ≤ s.available ∧ (s.online = true → s.usedMW = s.capacityMW - s.available)) := by
  refine ⟨allocate_inv, deallocate_inv, ?_, ?_⟩
  · intro g now hpos hall s hs
    have hsubs : (g.runScheduler now).1.substations
        = (processAll (maintStep now g.maintenanceList g.substations).2
            (drainPQ g.demandQ)).2 := rfl
    rw [hsubs] at hs
    refine processAll_inv _ _ ?_ ?_ s hs
    · intro r hr
      exact hpos r ((drainPQ_perm g.demandQ).subset hr)
    · exact maintStep_inv _ _ now hall
  · intro s hsi
    refine ⟨subInv_available_nonneg s hsi, ?_⟩
    intro ho
    unfold Substation.available
    rw [if_pos ho]
    ring

/-- Witness for the amended C4: invariant `0 ≤ 2 ≤ 10` of `s3` is preserved
by allocating 4 MW. -/
theorem capacity_invariant_preserved_witness :
    SubInv s3 ∧ (0 : ℚ) < 4 ∧ SubInv (s3.allocate 4).2 :=
  ⟨by decide, by decide, capacity_invariant_preserved.1 s3 4 (by decide) (by decide)⟩

/-- Counterexample for C5 as stated: at time 100, the first maintenance job
of `gridCex5` is InProgress on S01, yet a second, already finished job on
the same substation overwrites the flag, so S01 ends the maintenance step
online and is selected for allocation in the same cycle. -/
theorem maintenance_gating_cex :
    ((gridCex5.runScheduler 100).1.maintenanceList.map MaintenanceJob.state
        = [MJState.IN_PROGRESS, MJState.DONE])
    ∧ ((gridCex5.runScheduler 100).1.substations.map Substation.online = [true])
    ∧ ((gridCex5.runScheduler 100).1.substations.map Substation.usedMW = [10])
    ∧ ((gridCex5.runScheduler 100).2.map DemandRequest.state = [ReqState.ALLOCATED]) := by
  have h1 : (MJState.DONE = MJState.IN_PROGRESS) = False := by simp
  have h2 : (MJState.IN_PROGRESS = MJState.IN_PROGRESS) = True := by simp
  norm_num [gridCex5, GridController.runScheduler, maintStep,
    MaintenanceJob.advanceState, drainPQ, drainAux, pqPop, compareDemand,
    DemandRequest.priority, ReqClass.priorityVal, processAll, processOne,
    tryAllocate, Substation.allocate, Substation.available, h1, h2]

/-- C5 (amended): after the maintenance-advance step of a cycle, every
substation's online flag equals the last-write of the jobs matching its id
(`applyMaint` of the last matching advanced job; the flag is unchanged when
no job matches), so a substation whose last matching job is InProgress is
offline; every offline substation has `available() = 0` and `allocate`
with positive `mw` always fails on it. -/
theorem maintenance_last_write_gating (g : GridController) (now : Int) :
    ((g.runScheduler now).1.maintenanceList
        = g.maintenanceList.map (·.advanceState now))
    ∧ ((maintStep now g.maintenanceList g.substations).2
        = g.substations.map fun s =>
            applyMaint s (lastMatch s.id (g.maintenanceList.map (·.advanceState now))))
    ∧ (∀ s : Substation, s.online = false → s.available = 0)
    ∧ (∀ (s : Substation) (mw : ℚ), 0 < mw → s.online = false →
        (s.allocate mw).1 = false) := by
  refine ⟨maintStep_jobs _ _ now, maintStep_subs _ _ now, ?_, ?_⟩
  · intro s ho
    unfold Substation.available
    rw [ho]
    simp
  · intro s mw hmw ho
    have hav : s.available = 0 := by
      unfold Substation.available
      rw [ho]
      simp
    cases hb : (s.allocate mw).1
    · rfl
    · exfalso
      have hle := (allocate_fst_iff s mw).mp hb
      rw [hav] at hle
      exact absurd (lt_of_lt_of_le hmw hle) (lt_irrefl 0)

/-- Witness for the amended C5: the offline substation `sOff9` rejects a
1 MW allocation. -/
theorem maintenance_last_write_gating_witness :
    (0 : ℚ) < 1 ∧ sOff9.online = false ∧ (sOff9.allocate 1).1 = false :=
  ⟨by decide, rfl,
   (maintenance_last_write_gating ⟨[], [], []⟩ 0).2.2.2 sOff9 1 (by decide) rfl⟩

lemma processOne_state_shed (subs : List Substation) (r : DemandRequest) :
    (processOne subs r).1.state = ReqState.SHED ↔
      (tryAllocate r.megawatts subs).1 = false := by
  unfold processOne
  split_ifs with h
  · constructor
    · intro hh; exact absurd hh (by decide)
    · intro hh; rw [h] at hh; exact absurd hh (by decide)
  · have hf : (tryAllocate r.megawatts subs).1 = false := by
      cases hb : (tryAllocate r.megawatts subs).1
      · rfl
      · exact absurd hb h
    exact ⟨fun _ => hf, fun _ => rfl⟩

lemma processOne_state_allocated (subs : List Substation) (r : DemandRequest) :
    (processOne subs r).1.state = ReqState.ALLOCATED ↔
      (tryAllocate r.megawatts subs).1 = true := by
  unfold processOne
  split_ifs with h
  · exact ⟨fun _ => h, fun _ => rfl⟩
  · constructor
    · intro hh; exact absurd hh (by decide)
    · intro hh; exact absurd hh h

/-- C6: the allocation pass is first-fit in registration order: a drained
request succeeds iff some substation has enough `available()`; if all fail
the substations are unchanged and the request is marked Shed; when
position `i` is the first with enough capacity, exactly that substation's
`usedMW` grows by the requested amount; the request's final state is Shed
iff no substation could satisfy it and Allocated iff one could.  On the
concrete grid {S01:50, S02:40} with a pending Industrial 30 MW and
Residential 45 MW request, one cycle allocates the industrial request to
S01 (used 30) and sheds the residential one. -/
theorem first_fit_allocation :
    (∀ (mw : ℚ) (subs : List Substation),
      ((tryAllocate mw subs).1 = true ↔ ∃ s ∈ subs, mw ≤ s.available))
    ∧ (∀ (mw : ℚ) (subs : List Substation),
        (∀ s ∈ subs, s.available < mw) → tryAllocate mw subs = (false, subs))
    ∧ (∀ (mw : ℚ) (subs : List Substation) (i : Fin subs.length),
        mw ≤ (subs.get i).available →
        (∀ j : Fin subs.length, (j : ℕ) < (i : ℕ) → (subs.get j).available < mw) →
        tryAllocate mw subs =
          (true, subs.set i { subs.get i with usedMW := (subs.get i).usedMW + mw }))
    ∧ (∀ (subs : List Substation) (r : DemandRequest),
        ((processOne subs r).1.state = ReqState.SHED ↔
          ∀ s ∈ subs, s.available < r.megawatts)
        ∧ ((processOne subs r).1.state = ReqState.ALLOCATED ↔
          ∃ s ∈ subs, r.megawatts ≤ s.available))
    ∧ (gridC6.runScheduler 0 =
        ({ demandQ := [],
           substations := [⟨"S01", 50, 30, true⟩, ⟨"S02", 40, 0, true⟩],
           maintenanceList := [] },
         [⟨"I1", 30, 0, .ALLOCATED, .INDUSTRIAL⟩,
          ⟨"R1", 45, 1, .SHED, .RESIDENTIAL⟩])) := by
  refine ⟨fun mw subs => tryAllocate_fst_iff subs mw,
    fun mw subs => tryAllocate_all_fail subs mw,
    fun mw subs => tryAllocate_first subs mw, ?_, ?_⟩
  · intro subs r
    constructor
    · rw [processOne_state_shed]
      constructor
      · intro hf s hs
        by_contra hlt
        push_neg at hlt
        have ht : (tryAllocate r.megawatts subs).1 = true :=
          (tryAllocate_fst_iff subs _).mpr ⟨s, hs, hlt⟩
        rw [hf] at ht
        exact absurd ht (by decide)
      · intro hall
        rw [tryAllocate_all_fail subs _ hall]
    · rw [processOne_state_allocated]
      exact tryAllocate_fst_iff subs r.megawatts
  · norm_num [gridC6, GridController.runScheduler, maintStep, drainPQ, drainAux,
      pqPop, compareDemand, DemandRequest.priority, ReqClass.priorityVal,
      processAll, processOne, tryAllocate, Substation.allocate,
      Substation.available]
    decide

/-- Witness for C6: 5 MW fits at position 0 of the one-substation list
`[sW6]`, and `tryAllocate` charges exactly that substation. -/
theorem first_fit_allocation_witness :
    ((5 : ℚ) ≤ ([sW6].get ⟨0, by decide⟩).available)
    ∧ tryAllocate 5 [sW6] =
        (true, [sW6].set (0 : ℕ)
          { [sW6].get ⟨0, by decide⟩ with
            usedMW := ([sW6].get ⟨0, by decide⟩).usedMW + 5 }) :=
  ⟨by simp [sW6, Substation.available]; decide,
   first_fit_allocation.2.2.1 5 [sW6] ⟨0, by decide⟩
     (by simp [sW6, Substation.available]; decide) (by decide)⟩

/-- C7: after every `runScheduler` call the pending queue is empty, every
processed request ends Allocated or Shed, and the processed sequence is a
permutation of the initially pending requests (up to the state field). -/
theorem runScheduler_drains_queue (g : GridController) (now : Int) :
    ((g.runScheduler now).1.demandQ = [])
    ∧ (∀ r ∈ (g.runScheduler now).2,
        r.state = ReqState.ALLOCATED ∨ r.state = ReqState.SHED)
    ∧ (((g.runScheduler now).2).map reqCore).Perm (g.demandQ.map reqCore) := by
  have hstates : ∀ r ∈ (g.runScheduler now).2,
      r.state = ReqState.ALLOCATED ∨ r.state = ReqState.SHED := by
    intro r hr
    rw [runScheduler_snd] at hr
    exact processAll_states _ _ r hr
  refine ⟨?_, hstates, runScheduler_processed_core_perm g now⟩
  rw [show (g.runScheduler now).1.demandQ
      = ((g.runScheduler now).2).filter (fun r => decide (r.state = ReqState.QUEUED))
      from rfl]
  rw [List.filter_eq_nil_iff]
  intro a ha
  rcases hstates a ha with h | h <;> rw [h] <;> decide

/-- Witness for C7: the industrial request of `gridW` is processed and ends
in a terminal state. -/
theorem runScheduler_drains_queue_witness :
    ((⟨"I1", 5, 1, .SHED, .INDUSTRIAL⟩ : DemandRequest) ∈ (gridW.runScheduler 0).2)
    ∧ ((⟨"I1", 5, 1, .SHED, .INDUSTRIAL⟩ : DemandRequest).state = ReqState.ALLOCATED
        ∨ (⟨"I1", 5, 1, .SHED, .INDUSTRIAL⟩ : DemandRequest).state = ReqState.SHED) :=
  ⟨by decide, (runScheduler_drains_queue gridW 0).2.1 _ (by decide)⟩

/-- C8: `advanceState(now)` moves a Scheduled job with `now ≥ start` to
InProgress and, within the same call, on to Done when `now ≥ end` (no
minimum dwell); it is the identity on Done jobs; and the state rank never
decreases. -/
theorem advanceState_spec (j : MaintenanceJob) (now : Int) :
    (j.state = MJState.SCHEDULED → j.startTime ≤ now →
      (j.advanceState now).state
        = if j.endTime ≤ now then MJState.DONE else MJState.IN_PROGRESS)
    ∧ (j.state = MJState.DONE → j.advanceState now = j)
    ∧ stateRank j.state ≤ stateRank ((j.advanceState now).state) := by
  have hdone : j.state = MJState.DONE → j.advanceState now = j := by
    intro h
    simp only [MaintenanceJob.advanceState]
    have hn1 : ¬(j.state = MJState.SCHEDULED ∧ j.startTime ≤ now) := by
      intro hc; rw [h] at hc; exact absurd hc.1 (by decide)
    rw [if_neg hn1]
    have hn2 : ¬(j.state = MJState.IN_PROGRESS ∧ j.endTime ≤ now) := by
      intro hc; rw [h] at hc; exact absurd hc.1 (by decide)
    rw [if_neg hn2]
  refine ⟨?_, hdone, ?_⟩
  · intro h1 h2
    simp only [MaintenanceJob.advanceState]
    have hp1 : j.state = MJState.SCHEDULED ∧ j.startTime ≤ now := ⟨h1, h2⟩
    rw [if_pos hp1]
    by_cases h3 : j.endTime ≤ now
    · have hp2 : ({ j with state := MJState.IN_PROGRESS } : MaintenanceJob).state
          = MJState.IN_PROGRESS
          ∧ ({ j with state := MJState.IN_PROGRESS } : MaintenanceJob).endTime ≤ now :=
        ⟨rfl, h3⟩
      rw [if_pos hp2, if_pos h3]
    · have hp2 : ¬(({ j with state := MJState.IN_PROGRESS } : MaintenanceJob).state
          = MJState.IN_PROGRESS
          ∧ ({ j with state := MJState.IN_PROGRESS } : MaintenanceJob).endTime ≤ now) :=
        fun hc => h3 hc.2
      rw [if_neg hp2, if_neg h3]
  · cases hj : j.state with
    | SCHEDULED => exact Nat.zero_le _
    | DONE =>
      rw [hdone hj, hj]
    | IN_PROGRESS =>
      simp only [MaintenanceJob.advanceState]
      have hn1 : ¬(j.state = MJState.SCHEDULED ∧ j.startTime ≤ now) := by
        intro hc; rw [hj] at hc; exact absurd hc.1 (by decide)
      rw [if_neg hn1]
      by_cases h2 : j.state = MJState.IN_PROGRESS ∧ j.endTime ≤ now
      · rw [if_pos h2]
        exact Nat.le_succ 1
      · rw [if_neg h2, hj]

/-- Witness for C8: the job `j8` (window [0, 5), Scheduled), advanced at
time 10, skips through InProgress to Done in one call. -/
theorem advanceState_spec_witness :
    j8.state = MJState.SCHEDULED ∧ j8.startTime ≤ 10
    ∧ (j8.advanceState 10).state
        = if j8.endTime ≤ 10 then MJState.DONE else MJState.IN_PROGRESS :=
  ⟨rfl, by decide, (advanceState_spec j8 10).1 rfl (by decide)⟩

/-- C9: for every substation with nonnegative `available()` (which
includes every offline substation) and every nonpositive `mw`,
`allocate(mw)` succeeds and adds `mw` to `usedMW` — so a negative request
succeeds even offline and can drive `usedMW` below zero. -/
theorem allocate_nonpositive (s : Substation) (mw : ℚ)
    (h0 : 0 ≤ s.available) (hm : mw ≤ 0) :
    (s.allocate mw).1 = true ∧ (s.allocate mw).2.usedMW = s.usedMW + mw := by
  have hle : mw ≤ s.available := le_trans hm h0
  unfold Substation.allocate
  rw [if_pos hle]
  exact ⟨rfl, rfl⟩

/-- Witness for C9: allocating -5 MW on the offline substation `sOff9`
succeeds and leaves `usedMW = -5 < 0`. -/
theorem allocate_nonpositive_witness :
    (0 : ℚ) ≤ sOff9.available ∧ (-5 : ℚ) ≤ 0
    ∧ (sOff9.allocate (-5)).1 = true
    ∧ (sOff9.allocate (-5)).2.usedMW = sOff9.usedMW + (-5)
    ∧ (sOff9.allocate (-5)).2.usedMW < 0 := by
  have h := allocate_nonpositive sOff9 (-5) (by decide) (by decide)
  refine ⟨by decide, by decide, h.1, h.2, ?_⟩
  rw [h.2]
  simp only [sOff9, zero_add]
  decide

/-- C10: `receiveDemand` only queues the request (state set to QUEUED),
leaving substations and maintenance list untouched; `scheduleMaintenance`
only appends one Scheduled job — for any arguments, including an unknown
substation id — leaving the queue and substations untouched. -/
theorem intake_frame (g : GridController) (req : DemandRequest) (sid : String)
    (start stop : Int) :
    ((g.receiveDemand req).substations = g.substations)
    ∧ ((g.receiveDemand req).maintenanceList = g.maintenanceList)
    ∧ ((g.receiveDemand req).demandQ
        = g.demandQ ++ [{ req with state := ReqState.QUEUED }])
    ∧ ((g.scheduleMaintenance sid start stop).demandQ = g.demandQ)
    ∧ ((g.scheduleMaintenance sid start stop).substations = g.substations)
    ∧ ((g.scheduleMaintenance sid start stop).maintenanceList
        = g.maintenanceList ++ [⟨sid, start, stop, MJState.SCHEDULED⟩]) :=
  ⟨rfl, rfl, rfl, rfl, rfl, rfl⟩
